import Mathlib

/-!
Shallow embedding of the "Dacus number" core of `src/app.py`
(MikeStrusz/NMF_HF_Version): the artist-similarity graph builder
`build_graph` (app.py:1551-1604) and the distance query
`calculate_dacus_number` (app.py:1488-1503), which wraps
`nx.shortest_path` on an undirected `networkx` graph.

Modelling choices, each tied to the source:
* A `networkx.Graph` is an insertion-ordered node list with a `type`
  attribute (`none` when the node was created by `add_edge`, which sets no
  attributes) plus an undirected edge list without duplicates.
* Pandas dataframes are a pair of column-presence flags and a row list;
  a NaN / non-string "Similar Artists" cell is `Option.none`, matching the
  `isinstance(row['Similar Artists'], str)` guard at app.py:1586.
* Python `str.strip()` is `pyStrip` (drop whitespace at both ends);
  `.str.split(',')` / `.split(', ')` are `pySplitComma` /
  `pySplitCommaSpace`, structurally recursive splitters with Python's
  keep-empty-pieces, leftmost-nonoverlapping semantics.
* `nx.shortest_path(G, source, target)` (unweighted, so breadth-first
  search) is `nx_shortest_path`: `NodeNotFound` when source or target is
  not a node, `NetworkXNoPath` when the search exhausts the component.
  The fuel `G.nodes.length + 1` bounds the iteration count: every queue
  entry past the initial one is enqueued together with a fresh visited
  node, and only graph nodes are ever enqueued.
* Python raising is `Except.error`; the `except nx.NetworkXNoPath` handler
  at app.py:1502 catches exactly `noPath`, and `nodeNotFound` propagates.
* `build_graph` passes Python `set(...)` values to `add_nodes_from`; the
  set's iteration order is arbitrary. The canonical `build_graph` iterates
  the underlying list in first-occurrence order (duplicates re-set the
  same attribute, which is idempotent); `build_graph_ord` abstracts the
  iteration order and is compared with the canonical one for the
  determinism claim.
-/

/-- A row of the ratings table `df`: the `playlist_origin` column and the
`Artist Name(s)` column. -/
structure RatingsRow where
  playlist_origin : String
  artistNames : String
deriving DecidableEq, Repr

/-- The ratings table `df`: column-presence flags for `playlist_origin` and
`Artist Name(s)` (app.py:1560 checks both), and the rows. -/
structure RatingsDF where
  hasOriginCol : Bool
  hasArtistCol : Bool
  rows : List RatingsRow
deriving DecidableEq, Repr

/-- A row of the similarity table `df_liked_similar`: the `Artist` column and
the `Similar Artists` column, `none` when the cell is NaN / not a string. -/
structure SimilarRow where
  artist : String
  similarArtists : Option String
deriving DecidableEq, Repr

/-- The similarity table `df_liked_similar` with presence flags for the
`Artist` and `Similar Artists` columns. -/
structure SimilarDF where
  hasArtistCol : Bool
  hasSimilarCol : Bool
  rows : List SimilarRow
deriving DecidableEq, Repr

/-- Python `str.strip()`: remove leading and trailing whitespace. -/
def pyStrip (s : String) : String :=
  String.mk (((s.data.dropWhile Char.isWhitespace).reverse.dropWhile
    Char.isWhitespace).reverse)

/-- Python `split(',')` on a character list: split at every comma, keeping
empty pieces (structural recursion, so it evaluates inside the kernel). -/
def splitComma : List Char → List (List Char)
  | [] => [[]]
  | c :: rest =>
    if c = ',' then [] :: splitComma rest
    else
      match splitComma rest with
      | [] => [[c]]
      | t :: ts => (c :: t) :: ts

/-- Python `split(', ')` on a character list: split at each non-overlapping
leftmost occurrence of comma-then-space, keeping empty pieces. -/
def splitCommaSpace : List Char → List (List Char)
  | [] => [[]]
  | [c] => [[c]]
  | c1 :: c2 :: rest =>
    if c1 = ',' && c2 = ' ' then [] :: splitCommaSpace rest
    else
      match splitCommaSpace (c2 :: rest) with
      | [] => [[c1]]
      | t :: ts => (c1 :: t) :: ts

/-- Python `s.split(',')` (app.py:1563 and similar). -/
def pySplitComma (s : String) : List String :=
  (splitComma s.data).map String.mk

/-- Python `s.split(', ')` (app.py:1587). -/
def pySplitCommaSpace (s : String) : List String :=
  (splitCommaSpace s.data).map String.mk

/-- `.str.split(',')` followed by `.explode()` and `.str.strip()`, applied to
a column given as a list of cell values (app.py:1561-1564 and similar). -/
def splitExplodeStrip (cells : List String) : List String :=
  cells.flatMap (fun c => (pySplitComma c).map pyStrip)

/-- The `liked_artists` value of app.py:1560-1566: rows whose
`playlist_origin` is `df_liked` or `df_fav_albums`, their `Artist Name(s)`
split on commas and stripped; empty when either column is missing.
(The Python `set(...)` is kept as a list; see the header comment.) -/
def likedArtists (df : RatingsDF) : List String :=
  if df.hasOriginCol && df.hasArtistCol then
    splitExplodeStrip ((df.rows.filter (fun r =>
      r.playlist_origin == "df_liked" || r.playlist_origin == "df_fav_albums")).map
      (fun r => r.artistNames))
  else []

/-- The `similar_artists_liked` value of app.py:1571-1578: the
`Similar Artists` column with NaN dropped, split on commas and stripped;
empty when the column is missing. -/
def similarLikedArtists (sim : SimilarDF) : List String :=
  if sim.hasSimilarCol then
    splitExplodeStrip (sim.rows.filterMap (fun r => r.similarArtists))
  else []

/-- The `nmf_artists` value of app.py:1593-1596 (rows with origin `df_nmf`).
The column guard lives at the call site (app.py:1592) and is repeated here. -/
def nmfArtists (df : RatingsDF) : List String :=
  if df.hasOriginCol && df.hasArtistCol then
    splitExplodeStrip ((df.rows.filter (fun r =>
      r.playlist_origin == "df_nmf")).map (fun r => r.artistNames))
  else []

/-- The `not_liked_artists` value of app.py:1597-1600 (origin `df_not_liked`). -/
def notLikedArtists (df : RatingsDF) : List String :=
  if df.hasOriginCol && df.hasArtistCol then
    splitExplodeStrip ((df.rows.filter (fun r =>
      r.playlist_origin == "df_not_liked")).map (fun r => r.artistNames))
  else []

/-- A `networkx.Graph`: insertion-ordered nodes, each with its optional
`type` attribute, and an undirected duplicate-free edge list. -/
structure Graph where
  nodes : List (String × Option String)
  edges : List (String × String)
deriving DecidableEq, Repr

/-- The empty graph `nx.Graph()`. -/
def Graph.empty : Graph := ⟨[], []⟩

/-- Node membership, Python `name in G`. -/
def Graph.hasNode (G : Graph) (n : String) : Bool :=
  G.nodes.any (fun p => p.1 == n)

/-- The `type` attribute of a node: `none` if the node is absent,
`some a` with `a` its (optional) attribute otherwise. -/
def Graph.attrOf (G : Graph) (n : String) : Option (Option String) :=
  (G.nodes.find? (fun p => p.1 == n)).map (fun p => p.2)

/-- Undirected edge membership (`networkx` stores each edge once, in either
orientation). -/
def Graph.hasEdge (G : Graph) (u v : String) : Bool :=
  G.edges.any (fun e => (e.1 == u && e.2 == v) || (e.1 == v && e.2 == u))

/-- `G.add_node(n, type=t)`: insert the node or overwrite its attribute. -/
def Graph.addNodeAttr (G : Graph) (n : String) (t : String) : Graph :=
  if G.hasNode n then
    { G with nodes := G.nodes.map (fun p => if p.1 == n then (p.1, some t) else p) }
  else
    { G with nodes := G.nodes ++ [(n, some t)] }

/-- `G.add_nodes_from(l, type=t)` (app.py:1568, 1580, 1601, 1602). -/
def Graph.addNodesFrom (G : Graph) (l : List String) (t : String) : Graph :=
  l.foldl (fun g n => g.addNodeAttr n t) G

/-- The node-creating half of `G.add_edge`: a fresh endpoint is inserted with
no attributes. -/
def Graph.ensureNode (G : Graph) (n : String) : Graph :=
  if G.hasNode n then G else { G with nodes := G.nodes ++ [(n, none)] }

/-- The edge-recording half of `G.add_edge`: record the undirected edge if
new (re-adding only refreshes the uniform weight, which the model elides). -/
def addEdgeAux (G : Graph) (u v : String) : Graph :=
  if G.hasEdge u v then G else { G with edges := G.edges ++ [(u, v)] }

/-- `G.add_edge(u, v, weight=1.0)` (app.py:1589): create missing endpoint
nodes, then record the undirected edge. -/
def Graph.addEdge (G : Graph) (u v : String) : Graph :=
  addEdgeAux ((G.ensureNode u).ensureNode v) u v

/-- The loop body of app.py:1584-1589: if the row's `Similar Artists` cell is
a string, split it on the two-character separator `", "` (note: not the
same split as the node-adding step) and add an edge from the raw, unstripped
`Artist` cell to each piece. -/
def addEdgesFromRow (G : Graph) (r : SimilarRow) : Graph :=
  match r.similarArtists with
  | some s => (pySplitCommaSpace s).foldl (fun g x => g.addEdge r.artist x) G
  | none => G

/-- The edge-adding loop of app.py:1583-1589, gated on both similarity
columns being present. -/
def buildEdgesPhase (sim : SimilarDF) (G : Graph) : Graph :=
  if sim.hasArtistCol && sim.hasSimilarCol then
    sim.rows.foldl addEdgesFromRow G
  else G

/-- `build_graph(df, df_liked_similar, include_nmf)` (app.py:1551-1604), the
four steps in source order: liked nodes, similar-liked nodes, similarity
edges, then (optionally, app.py:1591-1602) NMF and not-liked nodes. -/
def build_graph (df : RatingsDF) (sim : SimilarDF) (include_nmf : Bool) : Graph :=
  if include_nmf && df.hasOriginCol && df.hasArtistCol then
    (((buildEdgesPhase sim
        ((Graph.empty.addNodesFrom (likedArtists df) "liked").addNodesFrom
          (similarLikedArtists sim) "similar_liked")).addNodesFrom
      (nmfArtists df) "nmf").addNodesFrom (notLikedArtists df) "not_liked")
  else
    buildEdgesPhase sim
      ((Graph.empty.addNodesFrom (likedArtists df) "liked").addNodesFrom
        (similarLikedArtists sim) "similar_liked")

/-- `build_graph` with the iteration order of the four Python `set(...)`
values made explicit: `o1`-`o4` are the orders in which `add_nodes_from`
receives the liked, similar-liked, NMF and not-liked artist sets. -/
def build_graph_ord (df : RatingsDF) (sim : SimilarDF) (include_nmf : Bool)
    (o1 o2 o3 o4 : List String) : Graph :=
  if include_nmf && df.hasOriginCol && df.hasArtistCol then
    (((buildEdgesPhase sim
        ((Graph.empty.addNodesFrom o1 "liked").addNodesFrom
          o2 "similar_liked")).addNodesFrom o3 "nmf").addNodesFrom
      o4 "not_liked")
  else
    buildEdgesPhase sim
      ((Graph.empty.addNodesFrom o1 "liked").addNodesFrom o2 "similar_liked")

/-- The `networkx` exceptions reachable from `nx.shortest_path` here. -/
inductive NXErr where
  | nodeNotFound
  | noPath
deriving DecidableEq, Repr

/-- Decidable equality for `Except`, so concrete runs can be checked by
`decide`. -/
def exceptDecEq {ε α : Type} [DecidableEq ε] [DecidableEq α] :
    (a b : Except ε α) → Decidable (a = b)
  | Except.ok a, Except.ok b =>
    if h : a = b then Decidable.isTrue (by rw [h])
    else Decidable.isFalse (by simp [h])
  | Except.error e, Except.error f =>
    if h : e = f then Decidable.isTrue (by rw [h])
    else Decidable.isFalse (by simp [h])
  | Except.ok _, Except.error _ => Decidable.isFalse (by simp)
  | Except.error _, Except.ok _ => Decidable.isFalse (by simp)

instance {ε α : Type} [DecidableEq ε] [DecidableEq α] : DecidableEq (Except ε α) :=
  exceptDecEq

/-- The neighbours of `u`: the other endpoint of every incident edge. -/
def Graph.nbrs (G : Graph) (u : String) : List String :=
  G.edges.filterMap (fun e =>
    if e.1 == u then some e.2 else if e.2 == u then some e.1 else none)

/-- One breadth-first-search step: enqueue each yet-unvisited neighbour `w`
of the dequeued path `p`, extending the path and marking `w` visited. -/
def bfsStep (p : List String) (ws : List String)
    (qv : List (List String) × List String) : List (List String) × List String :=
  ws.foldl (fun acc w =>
    if acc.2.contains w then acc else (acc.1 ++ [w :: p], w :: acc.2)) qv

/-- Fuelled breadth-first search: paths are stored reversed (head = current
node, last = source); returns the first path reaching `target`, un-reversed. -/
def bfs (G : Graph) (target : String) :
    Nat → List (List String) → List String → Option (List String)
  | 0, _, _ => none
  | _ + 1, [], _ => none
  | fuel + 1, p :: rest, visited =>
    match p with
    | [] => none
    | v :: _ =>
      if v == target then some p.reverse
      else
        let st := bfsStep p (G.nbrs v) (rest, visited)
        bfs G target fuel st.1 st.2

/-- `nx.shortest_path(G, source=src, target=tgt)` with no weight: a
bidirectional breadth-first search. Raises `NodeNotFound` when either
endpoint is not a node, `NetworkXNoPath` when no path exists. -/
def nx_shortest_path (G : Graph) (src tgt : String) : Except NXErr (List String) :=
  if !(G.hasNode src) || !(G.hasNode tgt) then
    Except.error NXErr.nodeNotFound
  else
    match bfs G tgt (G.nodes.length + 1) [[src]] [src] with
    | some p => Except.ok p
    | none => Except.error NXErr.noPath

/-- Adjacency as a proposition: `G` records an edge between `u` and `v`. -/
def Graph.Adj (G : Graph) (u v : String) : Prop := G.hasEdge u v = true

/-- `p` is a path from `u` to `v` in `G`: it starts at `u`, ends at `v`
(hence is nonempty), and consecutive entries are adjacent. -/
def IsPathBetween (G : Graph) (u v : String) (p : List String) : Prop :=
  p.head? = some u ∧ p.getLast? = some v ∧ List.Chain' G.Adj p

/-- Some path joins `u` and `v` in `G`. -/
def HasPath (G : Graph) (u v : String) : Prop := ∃ p, IsPathBetween G u v p

/-- `calculate_dacus_number(artist_name, G)` (app.py:1488-1503). A Python
return of `(None, None)` is `Except.ok none`; a return of `(d, path)` is
`Except.ok (some (d, path))`; an uncaught exception is `Except.error`.
The `try/except nx.NetworkXNoPath` catches exactly `noPath`. -/
def calculate_dacus_number (artist_name : String) (G : Graph) :
    Except NXErr (Option (Nat × List String)) :=
  if !(G.hasNode artist_name) then
    Except.ok none
  else if artist_name == "Lucy Dacus" then
    Except.ok (some (0, ["Lucy Dacus"]))
  else
    match nx_shortest_path G artist_name "Lucy Dacus" with
    | Except.ok path => Except.ok (some (path.length - 1, path))
    | Except.error NXErr.noPath => Except.ok none
    | Except.error e => Except.error e

/-! ### Concrete inputs used by witnesses and counterexamples -/

/-- The spec's worked example: a ratings table whose only liked artist is
"Lucy Dacus". -/
def exDF : RatingsDF := ⟨true, true, [⟨"df_liked", "Lucy Dacus"⟩]⟩

/-- The spec's worked example similarity table. -/
def exSim : SimilarDF := ⟨true, true,
  [⟨"Lucy Dacus", some "Julien Baker, Phoebe Bridgers"⟩,
   ⟨"Julien Baker", some "boygenius"⟩]⟩

/-- The graph the worked example builds. -/
def exG : Graph := build_graph exDF exSim false

/-- The invariant of every queued (reversed) path during the search from
`src`: nonempty, rooted at `src`, simple, edge-connected, and fully marked
visited. -/
def BfsInv (G : Graph) (src : String) (visited : List String)
    (p : List String) : Prop :=
  p ≠ [] ∧ p.getLast? = some src ∧ p.Nodup ∧ List.Chain' G.Adj p ∧
    ∀ x ∈ p, x ∈ visited

/-- A two-node graph with no edges: "A" and "Lucy Dacus" both present but
disconnected. -/
def discG : Graph := ⟨[("A", none), ("Lucy Dacus", none)], []⟩

/-- A ratings table whose sole row is NMF-sourced, for the C6 witness. -/
def dfW : RatingsDF := ⟨true, true, [⟨"df_nmf", "Z"⟩]⟩

/-- A one-row similarity table not touching "Z", for the C6 witness. -/
def simW : SimilarDF := ⟨true, true, [⟨"Lucy Dacus", some "Julien Baker"⟩]⟩

/-- The status of every node the builder can produce: either a tagged node
whose name came out of a strip, or an untagged node created as an edge
endpoint by `add_edge`. -/
def TaggedOk (G : Graph) : Prop :=
  ∀ pr ∈ G.nodes,
    (∃ t, pr.2 = some t ∧
      (t = "liked" ∨ t = "similar_liked" ∨ t = "nmf" ∨ t = "not_liked") ∧
      ∃ x, pr.1 = pyStrip x) ∨
    (pr.2 = none ∧ ∃ e ∈ G.edges, pr.1 = e.1 ∨ pr.1 = e.2)

/-- Observational equality of graphs: same attribute table (hence the same
node set) and the same edge list. -/
def GraphEquiv (G G' : Graph) : Prop :=
  (∀ n, G.attrOf n = G'.attrOf n) ∧ G.edges = G'.edges

/-- A two-liked-artist ratings table for the C9 witness. -/
def dfD : RatingsDF := ⟨true, true, [⟨"df_liked", "X, Y"⟩]⟩

/-- An empty similarity table for the C9 witness. -/
def simD : SimilarDF := ⟨true, true, []⟩

/-! ### Basic graph lemmas -/

theorem Graph.adj_symm (G : Graph) {u v : String} (h : G.Adj u v) : G.Adj v u := by
  unfold Graph.Adj Graph.hasEdge at h ⊢
  simp only [List.any_eq_true, Bool.or_eq_true, Bool.and_eq_true, beq_iff_eq] at h ⊢
  rcases h with ⟨e, he, hc⟩
  exact ⟨e, he, hc.symm⟩

theorem Graph.adj_of_mem_nbrs (G : Graph) {u w : String} (h : w ∈ G.nbrs u) :
    G.Adj u w := by
  unfold Graph.nbrs at h
  simp only [List.mem_filterMap] at h
  rcases h with ⟨e, he, hf⟩
  unfold Graph.Adj Graph.hasEdge
  simp only [List.any_eq_true, Bool.or_eq_true, Bool.and_eq_true, beq_iff_eq]
  by_cases h1 : e.1 = u
  · simp only [h1, beq_self_eq_true, if_true] at hf
    exact ⟨e, he, Or.inl ⟨h1, by injection hf⟩⟩
  · simp only [beq_iff_eq, h1, if_false] at hf
    by_cases h2 : e.2 = u
    · simp only [h2, beq_self_eq_true, if_true] at hf
      exact ⟨e, he, Or.inr ⟨by injection hf, h2⟩⟩
    · simp [h2] at hf

/-! ### Breadth-first-search invariants -/


theorem BfsInv.mono {G : Graph} {src : String} {vis vis' : List String}
    (hsub : ∀ x ∈ vis, x ∈ vis') {p : List String}
    (h : BfsInv G src vis p) : BfsInv G src vis' p :=
  ⟨h.1, h.2.1, h.2.2.1, h.2.2.2.1, fun x hx => hsub x (h.2.2.2.2 x hx)⟩

theorem bfsStep_inv (G : Graph) (src v : String) (p : List String)
    (hv : p.head? = some v) :
    ∀ (ws : List String), (∀ w ∈ ws, w ∈ G.nbrs v) →
    ∀ (qv : List (List String) × List String),
      (∀ q ∈ qv.1, BfsInv G src qv.2 q) → BfsInv G src qv.2 p →
      (∀ q ∈ (bfsStep p ws qv).1, BfsInv G src (bfsStep p ws qv).2 q) ∧
        (∀ x ∈ qv.2, x ∈ (bfsStep p ws qv).2) := by
  intro ws
  induction ws with
  | nil => intro _ qv hq _; exact ⟨hq, fun x hx => hx⟩
  | cons w ws ih =>
    intro hws qv hq hp
    have hstep : bfsStep p (w :: ws) qv =
        bfsStep p ws
          (if qv.2.contains w then qv else (qv.1 ++ [w :: p], w :: qv.2)) := by
      unfold bfsStep
      rfl
    rw [hstep]
    by_cases hc : qv.2.contains w
    · rw [if_pos hc]
      exact ih (fun x hx => hws x (List.mem_cons_of_mem w hx)) qv hq hp
    · rw [if_neg hc]
      have hwnot : w ∉ qv.2 := by
        intro hmem
        exact hc (by simpa using hmem)
      have hsub : ∀ x ∈ qv.2, x ∈ w :: qv.2 := fun x hx =>
        List.mem_cons_of_mem w hx
      have hnew : BfsInv G src (w :: qv.2) (w :: p) := by
        obtain ⟨hne, hlast, hnd, hch, hvis⟩ := hp
        refine ⟨List.cons_ne_nil w p, ?_, ?_, ?_, ?_⟩
        · cases p with
          | nil => exact absurd rfl hne
          | cons a t =>
            rw [List.getLast?_cons_cons]
            exact hlast
        · exact List.nodup_cons.mpr ⟨fun hmem => hwnot (hvis w hmem), hnd⟩
        · cases p with
          | nil => exact absurd rfl hne
          | cons a t =>
            have hav : a = v := by injection hv
            have hadj : G.Adj w a := by
              subst hav
              exact G.adj_symm (G.adj_of_mem_nbrs (hws w (List.mem_cons_self w ws)))
            exact List.chain'_cons.mpr ⟨hadj, hch⟩
        · intro x hx
          rcases List.mem_cons.mp hx with h | h
          · exact h ▸ List.mem_cons_self w qv.2
          · exact List.mem_cons_of_mem w (hvis x h)
      have hq' : ∀ q ∈ (qv.1 ++ [w :: p], w :: qv.2).1,
          BfsInv G src (qv.1 ++ [w :: p], w :: qv.2).2 q := by
        intro q hqmem
        rcases List.mem_append.mp hqmem with h | h
        · exact (hq q h).mono hsub
        · rcases List.mem_singleton.mp h with rfl
          exact hnew
      have hrest := ih (fun x hx => hws x (List.mem_cons_of_mem w hx))
        (qv.1 ++ [w :: p], w :: qv.2) hq' (hp.mono hsub)
      exact ⟨hrest.1, fun x hx => hrest.2 x (hsub x hx)⟩

theorem bfs_sound (G : Graph) (src tgt : String) :
    ∀ (fuel : Nat) (queue : List (List String)) (visited : List String),
      (∀ q ∈ queue, BfsInv G src visited q) →
      ∀ out, bfs G tgt fuel queue visited = some out →
      out ≠ [] ∧ out.head? = some src ∧ out.getLast? = some tgt ∧
        out.Nodup ∧ List.Chain' G.Adj out := by
  intro fuel
  induction fuel with
  | zero => intro queue visited _ out hout; simp [bfs] at hout
  | succ fuel ih =>
    intro queue visited hq out hout
    cases queue with
    | nil => simp [bfs] at hout
    | cons p rest =>
      cases p with
      | nil => simp [bfs] at hout
      | cons v t =>
        by_cases hvt : v = tgt
        · have hout' : out = (v :: t).reverse := by
            rw [bfs, if_pos (by simpa using hvt)] at hout
            injection hout with h
            exact h.symm
          obtain ⟨hne, hlast, hnd, hch, _⟩ :=
            hq (v :: t) (List.mem_cons_self (v :: t) rest)
          subst hout'
          refine ⟨by simp, ?_, ?_, ?_, ?_⟩
          · rw [List.head?_reverse]; exact hlast
          · rw [List.getLast?_reverse]; simp [hvt]
          · exact List.nodup_reverse.mpr hnd
          · refine List.chain'_reverse.mpr ?_
            exact hch.imp (fun a b hab => G.adj_symm hab)
        · rw [bfs, if_neg (by simpa using hvt)] at hout
          have hstep := bfsStep_inv G src v (v :: t) rfl (G.nbrs v)
            (fun w hw => hw) (rest, visited)
            (fun q hqm => hq q (List.mem_cons_of_mem _ hqm))
            (hq (v :: t) (List.mem_cons_self (v :: t) rest))
          exact ih _ _ hstep.1 out hout

/-! ### Distance-query theorems -/

/-- C1. For every graph `G` and artist `a`, whenever
`calculate_dacus_number a G` returns a non-null distance `d` and path `p`:
`p` has `d + 1` entries, consecutive entries are joined by an edge of `G`,
`p` starts at `a`, ends at "Lucy Dacus", and repeats no node. -/
theorem dacus_number_path_valid (G : Graph) (a : String) (d : Nat)
    (p : List String)
    (h : calculate_dacus_number a G = Except.ok (some (d, p))) :
    p.length = d + 1 ∧ p.head? = some a ∧ p.getLast? = some "Lucy Dacus" ∧
      p.Nodup ∧ List.Chain' G.Adj p := by
  unfold calculate_dacus_number at h
  cases hn : G.hasNode a with
  | false => rw [hn] at h; simp at h
  | true =>
    rw [hn] at h
    by_cases ha : a = "Lucy Dacus"
    · simp only [ha, Bool.not_true, Bool.false_eq_true, if_false,
        beq_self_eq_true, if_true] at h
      injection h with h
      injection h with h
      obtain ⟨hd, hp⟩ := Prod.mk.injEq .. ▸ h
      refine ⟨?_, ?_, ?_, ?_, ?_⟩ <;> simp [← hd, ← hp, ha]
    · have ha' : (a == "Lucy Dacus") = false := by simpa using ha
      simp only [Bool.not_true, Bool.false_eq_true, if_false, ha'] at h
      unfold nx_shortest_path at h
      cases hL : G.hasNode "Lucy Dacus" with
      | false => rw [hn, hL] at h; simp at h
      | true =>
        rw [hn, hL] at h
        simp only [Bool.not_true, Bool.or_self, Bool.false_eq_true,
          if_false] at h
        cases hb : bfs G "Lucy Dacus" (G.nodes.length + 1) [[a]] [a] with
        | none => rw [hb] at h; simp at h
        | some q =>
          rw [hb] at h
          injection h with h
          injection h with h
          obtain ⟨hd, hp⟩ := Prod.mk.injEq .. ▸ h
          have hinv : ∀ r ∈ [[a]], BfsInv G a [a] r := by
            intro r hr
            rcases List.mem_singleton.mp hr with rfl
            exact ⟨by simp, by simp, by simp, by simp, by simp⟩
          obtain ⟨hne, hhead, hlast, hnd, hch⟩ :=
            bfs_sound G a "Lucy Dacus" (G.nodes.length + 1) [[a]] [a] hinv q hb
          have hlen : 1 ≤ q.length := List.length_pos.mpr hne
          subst hp
          refine ⟨by omega, hhead, hlast, hnd, hch⟩

/-- Witness for C1 at the worked example: the query for "boygenius". -/
theorem dacus_number_path_valid_witness :
    (["boygenius", "Julien Baker", "Lucy Dacus"] : List String).length = 2 + 1 ∧
    (["boygenius", "Julien Baker", "Lucy Dacus"] : List String).head? =
      some "boygenius" ∧
    (["boygenius", "Julien Baker", "Lucy Dacus"] : List String).getLast? =
      some "Lucy Dacus" ∧
    (["boygenius", "Julien Baker", "Lucy Dacus"] : List String).Nodup ∧
    List.Chain' exG.Adj ["boygenius", "Julien Baker", "Lucy Dacus"] :=
  dacus_number_path_valid exG "boygenius" 2
    ["boygenius", "Julien Baker", "Lucy Dacus"] (by decide)

/-- C2 counterexample: when "Lucy Dacus" is not a node (empty graph), the
query for "Lucy Dacus" hits the membership check first and returns
`(None, None)`, not `(0, ["Lucy Dacus"])`. -/
theorem reference_artist_empty_graph_counterexample :
    calculate_dacus_number "Lucy Dacus" Graph.empty = Except.ok none ∧
    calculate_dacus_number "Lucy Dacus" Graph.empty ≠
      Except.ok (some (0, ["Lucy Dacus"])) := by
  constructor <;> decide

/-- C2 amended: if "Lucy Dacus" is a node of `G`, the query for
"Lucy Dacus" returns distance 0 with the single-element path. -/
theorem reference_artist_in_graph_returns_zero (G : Graph)
    (h : G.hasNode "Lucy Dacus" = true) :
    calculate_dacus_number "Lucy Dacus" G =
      Except.ok (some (0, ["Lucy Dacus"])) := by
  unfold calculate_dacus_number
  rw [h]
  simp

/-- Witness for the amended C2 at the worked example graph. -/
theorem reference_artist_in_graph_returns_zero_witness :
    calculate_dacus_number "Lucy Dacus" exG =
      Except.ok (some (0, ["Lucy Dacus"])) :=
  reference_artist_in_graph_returns_zero exG (by decide)

/-- C3. Any artist that is not a node of the graph gets `(None, None)`. -/
theorem absent_artist_returns_null (G : Graph) (a : String)
    (h : G.hasNode a = false) :
    calculate_dacus_number a G = Except.ok none := by
  unfold calculate_dacus_number
  rw [h]
  simp

/-- Witness for C3: "Mitski" is absent from the worked example graph. -/
theorem absent_artist_returns_null_witness :
    calculate_dacus_number "Mitski" exG = Except.ok none :=
  absent_artist_returns_null exG "Mitski" (by decide)


/-- In `discG` there is no path from "A" to "Lucy Dacus". -/
theorem discG_no_path : ¬ HasPath discG "A" "Lucy Dacus" := by
  rintro ⟨p, hhead, hlast, hch⟩
  cases p with
  | nil => simp at hhead
  | cons x t =>
    cases t with
    | nil =>
      simp at hhead hlast
      rw [hhead] at hlast
      exact absurd hlast (by decide)
    | cons y t2 =>
      have hadj : discG.Adj x y := (List.chain'_cons.mp hch).1
      simp [Graph.Adj, Graph.hasEdge, discG] at hadj

/-- C4 counterexample: the claim quantifies over every graph containing the
artist, but when "Lucy Dacus" is not itself a node the code raises
`NodeNotFound` instead of returning `(None, None)`. Here "A" is a node with
no path to "Lucy Dacus", yet the query errors. -/
theorem disconnected_without_reference_raises :
    (Graph.hasNode ⟨[("A", none)], []⟩ "A" = true) ∧
    calculate_dacus_number "A" ⟨[("A", none)], []⟩ =
      Except.error NXErr.nodeNotFound ∧
    calculate_dacus_number "A" ⟨[("A", none)], []⟩ ≠ Except.ok none := by
  refine ⟨by decide, by decide, by decide⟩

/-- C4 amended: if the artist and "Lucy Dacus" are both nodes of `G` and no
path joins them, the query returns `(None, None)` — the same value as the
artist-not-found case — without raising. -/
theorem disconnected_artist_returns_null (G : Graph) (a : String)
    (hA : G.hasNode a = true) (hL : G.hasNode "Lucy Dacus" = true)
    (hnp : ¬ HasPath G a "Lucy Dacus") :
    calculate_dacus_number a G = Except.ok none := by
  have ha : a ≠ "Lucy Dacus" := by
    intro h
    exact hnp ⟨[a], by simp, by simp [h], by simp⟩
  have ha' : (a == "Lucy Dacus") = false := by simpa using ha
  unfold calculate_dacus_number
  rw [hA]
  simp only [Bool.not_true, Bool.false_eq_true, if_false, ha']
  unfold nx_shortest_path
  rw [hA, hL]
  simp only [Bool.not_true, Bool.or_self, Bool.false_eq_true, if_false]
  cases hb : bfs G "Lucy Dacus" (G.nodes.length + 1) [[a]] [a] with
  | none => rfl
  | some q =>
    exfalso
    have hinv : ∀ r ∈ [[a]], BfsInv G a [a] r := by
      intro r hr
      rcases List.mem_singleton.mp hr with rfl
      exact ⟨by simp, by simp, by simp, by simp, by simp⟩
    obtain ⟨_, hhead, hlast, _, hch⟩ :=
      bfs_sound G a "Lucy Dacus" (G.nodes.length + 1) [[a]] [a] hinv q hb
    exact hnp ⟨q, hhead, hlast, hch⟩

/-- Witness for the amended C4 at the concrete disconnected graph. -/
theorem disconnected_artist_returns_null_witness :
    calculate_dacus_number "A" discG = Except.ok none :=
  disconnected_artist_returns_null discG "A" (by decide) (by decide)
    discG_no_path

/-- C10. If the artist is a node, is not "Lucy Dacus", and "Lucy Dacus" is
not a node, `nx.shortest_path` raises `NodeNotFound`, which the handler for
`NetworkXNoPath` does not catch; the call errors instead of returning
`(None, None)`. -/
theorem missing_reference_raises (G : Graph) (a : String)
    (hA : G.hasNode a = true) (ha : a ≠ "Lucy Dacus")
    (hL : G.hasNode "Lucy Dacus" = false) :
    calculate_dacus_number a G = Except.error NXErr.nodeNotFound := by
  have ha' : (a == "Lucy Dacus") = false := by simpa using ha
  unfold calculate_dacus_number
  rw [hA]
  simp only [Bool.not_true, Bool.false_eq_true, if_false, ha']
  unfold nx_shortest_path
  rw [hA, hL]
  simp

/-- Witness for C10 at a one-node graph lacking "Lucy Dacus". -/
theorem missing_reference_raises_witness :
    calculate_dacus_number "A" ⟨[("A", none)], []⟩ =
      Except.error NXErr.nodeNotFound :=
  missing_reference_raises ⟨[("A", none)], []⟩ "A" (by decide) (by decide)
    (by decide)

/-! ### Graph-construction lemmas -/

theorem Graph.edges_addNodeAttr (G : Graph) (n t : String) :
    (G.addNodeAttr n t).edges = G.edges := by
  unfold Graph.addNodeAttr
  split <;> rfl

theorem Graph.edges_addNodesFrom (G : Graph) (l : List String) (t : String) :
    (G.addNodesFrom l t).edges = G.edges := by
  induction l generalizing G with
  | nil => rfl
  | cons x xs ih =>
    show ((G.addNodeAttr x t).addNodesFrom xs t).edges = G.edges
    rw [ih, Graph.edges_addNodeAttr]

theorem Graph.edges_ensureNode (G : Graph) (n : String) :
    (G.ensureNode n).edges = G.edges := by
  unfold Graph.ensureNode
  split <;> rfl

theorem Graph.hasEdge_eq_of_edges_eq {G G' : Graph} (h : G.edges = G'.edges)
    (u v : String) : G.hasEdge u v = G'.hasEdge u v := by
  unfold Graph.hasEdge
  rw [h]

theorem Graph.edges_addEdge (G : Graph) (u v : String) :
    (G.addEdge u v).edges =
      if G.hasEdge u v then G.edges else G.edges ++ [(u, v)] := by
  have he : ((G.ensureNode u).ensureNode v).edges = G.edges := by
    rw [Graph.edges_ensureNode, Graph.edges_ensureNode]
  unfold Graph.addEdge addEdgeAux
  rw [Graph.hasEdge_eq_of_edges_eq he u v]
  by_cases h : G.hasEdge u v <;> simp [h, he]

theorem addEdge_edges_congr {G G' : Graph} (h : G.edges = G'.edges)
    (u v : String) : (G.addEdge u v).edges = (G'.addEdge u v).edges := by
  rw [Graph.edges_addEdge, Graph.edges_addEdge,
    Graph.hasEdge_eq_of_edges_eq h u v, h]

theorem foldAddEdge_edges_congr (a : String) (xs : List String) :
    ∀ {G G' : Graph}, G.edges = G'.edges →
      (xs.foldl (fun g x => g.addEdge a x) G).edges =
        (xs.foldl (fun g x => g.addEdge a x) G').edges := by
  induction xs with
  | nil => intro G G' h; exact h
  | cons x xs ih => intro G G' h; exact ih (addEdge_edges_congr h a x)

theorem addEdgesFromRow_edges_congr {G G' : Graph} (h : G.edges = G'.edges)
    (r : SimilarRow) : (addEdgesFromRow G r).edges = (addEdgesFromRow G' r).edges := by
  cases hr : r.similarArtists with
  | none => simp [addEdgesFromRow, hr, h]
  | some s =>
    simp only [addEdgesFromRow, hr]
    exact foldAddEdge_edges_congr r.artist (pySplitCommaSpace s) h

theorem rowsFold_edges_congr (rows : List SimilarRow) :
    ∀ {G G' : Graph}, G.edges = G'.edges →
      (rows.foldl addEdgesFromRow G).edges = (rows.foldl addEdgesFromRow G').edges := by
  induction rows with
  | nil => intro G G' h; exact h
  | cons r rs ih => intro G G' h; exact ih (addEdgesFromRow_edges_congr h r)

theorem addEdgesFromRow_none_edges {G : Graph} {r : SimilarRow}
    (h : r.similarArtists = none) : (addEdgesFromRow G r).edges = G.edges := by
  simp [addEdgesFromRow, h]

theorem rowsFold_none_edges (rows : List SimilarRow)
    (h : ∀ r ∈ rows, r.similarArtists = none) :
    ∀ G : Graph, (rows.foldl addEdgesFromRow G).edges = G.edges := by
  induction rows with
  | nil => intro G; rfl
  | cons r rs ih =>
    intro G
    have h1 : (addEdgesFromRow G r).edges = G.edges :=
      addEdgesFromRow_none_edges (h r (List.mem_cons_self r rs))
    calc ((r :: rs).foldl addEdgesFromRow G).edges
        = (rs.foldl addEdgesFromRow (addEdgesFromRow G r)).edges := rfl
      _ = (rs.foldl addEdgesFromRow G).edges :=
          rowsFold_edges_congr rs h1
      _ = G.edges := ih (fun x hx => h x (List.mem_cons_of_mem r hx)) G

theorem Graph.attrOf_addNodeAttr (G : Graph) (m t n : String) :
    (G.addNodeAttr m t).attrOf n = if m = n then some (some t) else G.attrOf n := by
  unfold Graph.addNodeAttr Graph.attrOf
  by_cases hm : G.hasNode m
  · rw [if_pos hm]
    show ((G.nodes.map fun p => if p.1 == m then (p.1, some t) else p).find?
      (fun p => p.1 == n)).map (fun p => p.2) = _
    rw [List.find?_map]
    have hcomp : ((fun p : String × Option String => p.1 == n) ∘ fun p =>
        if p.1 == m then (p.1, some t) else p) = fun p => p.1 == n := by
      funext p
      by_cases hp : p.1 = m <;> simp [hp]
    rw [hcomp]
    by_cases hmn : m = n
    · subst hmn
      unfold Graph.hasNode at hm
      obtain ⟨x, hx, hpx⟩ := List.any_eq_true.mp hm
      cases hfind : G.nodes.find? (fun p => p.1 == m) with
      | none =>
        rw [List.find?_eq_none] at hfind
        exact absurd hpx (hfind x hx)
      | some y =>
        have hy : y.1 = m := by
          have h := List.find?_some hfind
          simpa using h
        simp [hfind, hy]
    · cases hfind : G.nodes.find? (fun p => p.1 == n) with
      | none => simp [hfind, hmn]
      | some y =>
        have hy : y.1 = n := by
          have h := List.find?_some hfind
          simpa using h
        have hym : y.1 ≠ m := by
          rw [hy]
          exact fun h => hmn h.symm
        simp [hfind, hmn, hym]
  · rw [if_neg hm]
    show ((G.nodes ++ [(m, some t)]).find? (fun p => p.1 == n)).map
      (fun p : String × Option String => p.2) = _
    rw [List.find?_append]
    by_cases hmn : m = n
    · subst hmn
      have hnone : G.nodes.find? (fun p => p.1 == m) = none := by
        rw [List.find?_eq_none]
        intro x hx hpx
        exact hm (by unfold Graph.hasNode; exact List.any_eq_true.mpr ⟨x, hx, hpx⟩)
      simp [hnone]
    · cases hfind : G.nodes.find? (fun p => p.1 == n) with
      | none => simp [hfind, hmn]
      | some y => simp [hfind, hmn]

theorem Graph.attrOf_addNodesFrom (G : Graph) (l : List String) (t n : String) :
    (G.addNodesFrom l t).attrOf n =
      if n ∈ l then some (some t) else G.attrOf n := by
  induction l generalizing G with
  | nil => simp [Graph.addNodesFrom]
  | cons x xs ih =>
    show ((G.addNodeAttr x t).addNodesFrom xs t).attrOf n = _
    rw [ih, Graph.attrOf_addNodeAttr]
    by_cases hxs : n ∈ xs
    · simp [hxs]
    · by_cases hx : x = n
      · simp [hxs, hx]
      · have hnx : n ≠ x := fun h => hx h.symm
        simp [hxs, hx, hnx]

theorem Graph.hasNode_eq_isSome_attrOf (G : Graph) (n : String) :
    G.hasNode n = (G.attrOf n).isSome := by
  unfold Graph.hasNode Graph.attrOf
  rw [Option.isSome_map']
  cases hfind : G.nodes.find? (fun p => p.1 == n) with
  | none =>
    rw [List.find?_eq_none] at hfind
    simp only [Option.isSome_none]
    rw [← Bool.not_eq_true]
    intro hany
    obtain ⟨x, hx, hpx⟩ := List.any_eq_true.mp hany
    exact hfind x hx hpx
  | some y =>
    have hy := List.find?_some hfind
    have hmem := List.mem_of_find?_eq_some hfind
    simp only [Option.isSome_some]
    exact List.any_eq_true.mpr ⟨y, hmem, hy⟩

theorem Graph.hasNode_addNodesFrom (G : Graph) (l : List String) (t n : String) :
    (G.addNodesFrom l t).hasNode n = (G.hasNode n || decide (n ∈ l)) := by
  rw [Graph.hasNode_eq_isSome_attrOf, Graph.hasNode_eq_isSome_attrOf,
    Graph.attrOf_addNodesFrom]
  by_cases h : n ∈ l <;> simp [h]

theorem Graph.attrOf_ensureNode (G : Graph) (m n : String) :
    (G.ensureNode m).attrOf n =
      if G.hasNode m then G.attrOf n
      else if m = n then some none else G.attrOf n := by
  unfold Graph.ensureNode
  by_cases hm : G.hasNode m
  · simp [hm]
  · rw [if_neg hm, if_neg hm]
    show ((G.nodes ++ [(m, none)]).find?
      (fun p : String × Option String => p.1 == n)).map
      (fun p : String × Option String => p.2) = _
    rw [List.find?_append]
    by_cases hmn : m = n
    · subst hmn
      have hnone : G.nodes.find? (fun p => p.1 == m) = none := by
        rw [List.find?_eq_none]
        intro x hx hpx
        exact hm (by unfold Graph.hasNode; exact List.any_eq_true.mpr ⟨x, hx, hpx⟩)
      simp [hnone]
    · cases hfind : G.nodes.find? (fun p => p.1 == n) with
      | none => simp [Graph.attrOf, hfind, hmn]
      | some y => simp [Graph.attrOf, hfind, hmn]

theorem Graph.attrOf_addEdge (G : Graph) (u v n : String) :
    (G.addEdge u v).attrOf n = ((G.ensureNode u).ensureNode v).attrOf n := by
  unfold Graph.addEdge addEdgeAux
  split
  · rfl
  · rfl

/-- The edge list of any built graph: the edge phase applied to an
edge-free graph; empty when either similarity column is missing. -/
theorem build_graph_edges (df : RatingsDF) (sim : SimilarDF) (b : Bool) :
    (build_graph df sim b).edges =
      if sim.hasArtistCol && sim.hasSimilarCol then
        (sim.rows.foldl addEdgesFromRow Graph.empty).edges
      else [] := by
  have hnodes : ((Graph.empty.addNodesFrom (likedArtists df) "liked").addNodesFrom
      (similarLikedArtists sim) "similar_liked").edges = Graph.empty.edges := by
    rw [Graph.edges_addNodesFrom, Graph.edges_addNodesFrom]
  have hedge : (buildEdgesPhase sim
      ((Graph.empty.addNodesFrom (likedArtists df) "liked").addNodesFrom
        (similarLikedArtists sim) "similar_liked")).edges =
      if sim.hasArtistCol && sim.hasSimilarCol then
        (sim.rows.foldl addEdgesFromRow Graph.empty).edges
      else [] := by
    unfold buildEdgesPhase
    by_cases hc : (sim.hasArtistCol && sim.hasSimilarCol) = true
    · rw [if_pos hc, if_pos hc]
      exact rowsFold_edges_congr sim.rows hnodes
    · rw [if_neg hc, if_neg hc]
      exact hnodes
  unfold build_graph
  by_cases hb : (b && df.hasOriginCol && df.hasArtistCol) = true
  · rw [if_pos hb, Graph.edges_addNodesFrom, Graph.edges_addNodesFrom]
    exact hedge
  · rw [if_neg hb]
    exact hedge

/-- C5. Degenerate inputs degrade to empty contributions (the model is a
total function, so no case can raise): empty tables give the empty graph;
missing ratings columns make the ratings table contribute nothing; a missing
"Similar Artists" column makes the similarity table contribute nothing; a
missing "Artist" column yields no edges; rows whose similar-artists cell is
NaN / not a string yield no edges. -/
theorem build_graph_degenerate_inputs :
    (∀ (f1 f2 g1 g2 b : Bool),
      (build_graph ⟨f1, f2, []⟩ ⟨g1, g2, []⟩ b).nodes = [] ∧
        (build_graph ⟨f1, f2, []⟩ ⟨g1, g2, []⟩ b).edges = []) ∧
    (∀ (df : RatingsDF) (sim : SimilarDF) (b : Bool),
      df.hasOriginCol = false ∨ df.hasArtistCol = false →
      build_graph df sim b =
        build_graph ⟨df.hasOriginCol, df.hasArtistCol, []⟩ sim b) ∧
    (∀ (df : RatingsDF) (sim : SimilarDF) (b : Bool),
      sim.hasSimilarCol = false →
      build_graph df sim b = build_graph df ⟨sim.hasArtistCol, false, []⟩ b) ∧
    (∀ (df : RatingsDF) (sim : SimilarDF) (b : Bool),
      sim.hasArtistCol = false → (build_graph df sim b).edges = []) ∧
    (∀ (df : RatingsDF) (sim : SimilarDF) (b : Bool),
      (∀ r ∈ sim.rows, r.similarArtists = none) →
      (build_graph df sim b).edges = []) := by
  refine ⟨?_, ?_, ?_, ?_, ?_⟩
  · intro f1 f2 g1 g2 b
    cases f1 <;> cases f2 <;> cases g1 <;> cases g2 <;> cases b <;>
      exact ⟨rfl, rfl⟩
  · rintro ⟨o, a, rows⟩ sim b h
    rcases h with h | h <;> simp only at h <;> subst h <;>
      simp [build_graph, buildEdgesPhase, likedArtists, nmfArtists,
        notLikedArtists]
  · rintro df ⟨sa, ss, rows⟩ b h
    simp only at h
    subst h
    simp [build_graph, buildEdgesPhase, similarLikedArtists]
  · intro df sim b h
    rw [build_graph_edges, h]
    simp
  · intro df sim b h
    rw [build_graph_edges]
    by_cases hc : (sim.hasArtistCol && sim.hasSimilarCol) = true
    · rw [if_pos hc]
      exact rowsFold_none_edges sim.rows h Graph.empty
    · rw [if_neg hc]

/-- Witness for C5: each hypothesis-bearing conjunct at a concrete input. -/
theorem build_graph_degenerate_inputs_witness :
    (build_graph ⟨false, true, [⟨"df_liked", "X"⟩]⟩ ⟨true, true, []⟩ true =
      build_graph ⟨false, true, []⟩ ⟨true, true, []⟩ true) ∧
    (build_graph ⟨true, true, []⟩ ⟨true, false, [⟨"A", some "B"⟩]⟩ true =
      build_graph ⟨true, true, []⟩ ⟨true, false, []⟩ true) ∧
    ((build_graph ⟨true, true, []⟩ ⟨false, true, [⟨"A", some "B"⟩]⟩ false).edges
      = []) ∧
    ((build_graph ⟨true, true, []⟩ ⟨true, true, [⟨"A", none⟩]⟩ false).edges
      = []) :=
  ⟨build_graph_degenerate_inputs.2.1 ⟨false, true, [⟨"df_liked", "X"⟩]⟩
      ⟨true, true, []⟩ true (Or.inl rfl),
   build_graph_degenerate_inputs.2.2.1 ⟨true, true, []⟩
      ⟨true, false, [⟨"A", some "B"⟩]⟩ true rfl,
   build_graph_degenerate_inputs.2.2.2.1 ⟨true, true, []⟩
      ⟨false, true, [⟨"A", some "B"⟩]⟩ false rfl,
   build_graph_degenerate_inputs.2.2.2.2 ⟨true, true, []⟩
      ⟨true, true, [⟨"A", none⟩]⟩ false (by decide)⟩

/-- C8. On the spec's worked example, "boygenius" gets Dacus number 2 with
path boygenius → Julien Baker → Lucy Dacus, and the absent "Mitski" gets
`(None, None)`. -/
theorem boygenius_example :
    calculate_dacus_number "boygenius" exG =
      Except.ok (some (2, ["boygenius", "Julien Baker", "Lucy Dacus"])) ∧
    calculate_dacus_number "Mitski" exG = Except.ok none :=
  ⟨by decide, by decide⟩

theorem nmfArtists_flags {df : RatingsDF} {a : String} (h : a ∈ nmfArtists df) :
    df.hasOriginCol = true ∧ df.hasArtistCol = true := by
  unfold nmfArtists at h
  by_cases hc : (df.hasOriginCol && df.hasArtistCol) = true
  · exact Bool.and_eq_true .. |>.mp hc
  · rw [if_neg hc] at h
    simp at h

theorem notLikedArtists_flags {df : RatingsDF} {a : String}
    (h : a ∈ notLikedArtists df) :
    df.hasOriginCol = true ∧ df.hasArtistCol = true := by
  unfold notLikedArtists at h
  by_cases hc : (df.hasOriginCol && df.hasArtistCol) = true
  · exact Bool.and_eq_true .. |>.mp hc
  · rw [if_neg hc] at h
    simp at h

/-- C6 counterexample: an artist whose origin marks it NMF-sourced is not
necessarily isolated — here "Julien Baker" is NMF-sourced yet the
similarity row adds an edge touching it. -/
theorem nmf_artist_with_edge_counterexample :
    ("Julien Baker" ∈ nmfArtists ⟨true, true, [⟨"df_nmf", "Julien Baker"⟩]⟩) ∧
    (("Lucy Dacus", "Julien Baker") ∈
      (build_graph ⟨true, true, [⟨"df_nmf", "Julien Baker"⟩]⟩
        ⟨true, true, [⟨"Lucy Dacus", some "Julien Baker"⟩]⟩ true).edges) :=
  ⟨by decide, by decide⟩

/-- C6 amended: with `include_nmf` every NMF-sourced or disliked artist is a
node, the inclusion adds no edges (the edge set equals the one built with
`include_nmf = false`), and such an artist is isolated (zero incident
edges) whenever it is not an endpoint of a similarity-derived edge. -/
theorem nmf_not_liked_isolated_unless_similar (df : RatingsDF)
    (sim : SimilarDF) :
    (build_graph df sim true).edges = (build_graph df sim false).edges ∧
    ∀ a : String, a ∈ nmfArtists df ∨ a ∈ notLikedArtists df →
      (build_graph df sim true).hasNode a = true ∧
      ((∀ e ∈ (build_graph df sim false).edges, e.1 ≠ a ∧ e.2 ≠ a) →
        ((build_graph df sim true).edges.filter
          (fun e => e.1 == a || e.2 == a)).length = 0) := by
  have hedges : (build_graph df sim true).edges =
      (build_graph df sim false).edges := by
    rw [build_graph_edges, build_graph_edges]
  refine ⟨hedges, ?_⟩
  intro a ha
  have hflags : df.hasOriginCol = true ∧ df.hasArtistCol = true := by
    rcases ha with h | h
    · exact nmfArtists_flags h
    · exact notLikedArtists_flags h
  constructor
  · unfold build_graph
    rw [if_pos (by simp [hflags.1, hflags.2])]
    rw [Graph.hasNode_addNodesFrom, Graph.hasNode_addNodesFrom]
    rcases ha with h | h <;> simp [h]
  · intro hinc
    rw [List.length_eq_zero, List.filter_eq_nil_iff]
    intro e he
    rw [hedges] at he
    obtain ⟨h1, h2⟩ := hinc e he
    simp [h1, h2]



/-- Witness for the amended C6: "Z" is NMF-sourced, touches no similarity
edge, and ends up an isolated node. -/
theorem nmf_not_liked_isolated_unless_similar_witness :
    (build_graph dfW simW true).hasNode "Z" = true ∧
    ((build_graph dfW simW true).edges.filter
      (fun e => e.1 == "Z" || e.2 == "Z")).length = 0 :=
  ⟨((nmf_not_liked_isolated_unless_similar dfW simW).2 "Z"
      (Or.inl (by decide))).1,
   ((nmf_not_liked_isolated_unless_similar dfW simW).2 "Z"
      (Or.inl (by decide))).2 (by decide)⟩


theorem TaggedOk.addNodeAttr {G : Graph} (h : TaggedOk G) {n t : String}
    (ht : t = "liked" ∨ t = "similar_liked" ∨ t = "nmf" ∨ t = "not_liked")
    (hn : ∃ x, n = pyStrip x) : TaggedOk (G.addNodeAttr n t) := by
  intro pr hpr
  simp only [Graph.edges_addNodeAttr]
  unfold Graph.addNodeAttr at hpr
  by_cases hm : G.hasNode n
  · rw [if_pos hm] at hpr
    simp only [List.mem_map] at hpr
    obtain ⟨q, hq, hfq⟩ := hpr
    by_cases hq1 : q.1 = n
    · have hpr' : pr = (q.1, some t) := by rw [← hfq]; simp [hq1]
      subst hpr'
      left
      exact ⟨t, rfl, ht, by rw [hq1]; exact hn⟩
    · have hpr' : pr = q := by rw [← hfq]; simp [hq1]
      subst hpr'
      exact h _ hq
  · rw [if_neg hm] at hpr
    simp only [List.mem_append, List.mem_singleton] at hpr
    rcases hpr with hold | hnew
    · exact h pr hold
    · subst hnew
      left
      exact ⟨t, rfl, ht, hn⟩

theorem TaggedOk.addNodesFrom {G : Graph} (h : TaggedOk G) {l : List String}
    (hl : ∀ n ∈ l, ∃ x, n = pyStrip x) {t : String}
    (ht : t = "liked" ∨ t = "similar_liked" ∨ t = "nmf" ∨ t = "not_liked") :
    TaggedOk (G.addNodesFrom l t) := by
  induction l generalizing G with
  | nil => exact h
  | cons y ys ih =>
    exact ih (h.addNodeAttr ht (hl y (List.mem_cons_self y ys)))
      (fun n hn => hl n (List.mem_cons_of_mem y hn))

theorem addEdgeAux_nodes (G : Graph) (u v : String) :
    (addEdgeAux G u v).nodes = G.nodes := by
  unfold addEdgeAux
  split <;> rfl

theorem Graph.ensureNode_nodes_cases {G : Graph} {m : String}
    {pr : String × Option String} (h : pr ∈ (G.ensureNode m).nodes) :
    pr ∈ G.nodes ∨ pr = (m, none) := by
  unfold Graph.ensureNode at h
  by_cases hm : G.hasNode m
  · rw [if_pos hm] at h
    exact Or.inl h
  · rw [if_neg hm] at h
    simp only [List.mem_append, List.mem_singleton] at h
    exact h

theorem Graph.edges_subset_addEdge (G : Graph) (u v : String) :
    ∀ e ∈ G.edges, e ∈ (G.addEdge u v).edges := by
  rw [Graph.edges_addEdge]
  by_cases hc : G.hasEdge u v
  · rw [if_pos hc]; exact fun e he => he
  · rw [if_neg hc]; exact fun e he => List.mem_append_left _ he

theorem addEdge_endpoints_mem (G : Graph) (u v : String) :
    (∃ e ∈ (G.addEdge u v).edges, u = e.1 ∨ u = e.2) ∧
    (∃ e ∈ (G.addEdge u v).edges, v = e.1 ∨ v = e.2) := by
  rw [Graph.edges_addEdge]
  by_cases hc : G.hasEdge u v
  · rw [if_pos hc]
    unfold Graph.hasEdge at hc
    obtain ⟨e, he, hcase⟩ := List.any_eq_true.mp hc
    simp only [Bool.or_eq_true, Bool.and_eq_true, beq_iff_eq] at hcase
    constructor
    · refine ⟨e, he, ?_⟩
      rcases hcase with ⟨h1, _⟩ | ⟨_, h2⟩
      · exact Or.inl h1.symm
      · exact Or.inr h2.symm
    · refine ⟨e, he, ?_⟩
      rcases hcase with ⟨_, h2⟩ | ⟨h1, _⟩
      · exact Or.inr h2.symm
      · exact Or.inl h1.symm
  · rw [if_neg hc]
    exact ⟨⟨(u, v), List.mem_append_right _ (List.mem_singleton_self _),
        Or.inl rfl⟩,
      ⟨(u, v), List.mem_append_right _ (List.mem_singleton_self _),
        Or.inr rfl⟩⟩

theorem TaggedOk.addEdge {G : Graph} (h : TaggedOk G) (u v : String) :
    TaggedOk (G.addEdge u v) := by
  intro pr hpr
  have hpr' : pr ∈ G.nodes ∨ pr = (u, none) ∨ pr = (v, none) := by
    unfold Graph.addEdge at hpr
    rw [addEdgeAux_nodes] at hpr
    rcases Graph.ensureNode_nodes_cases hpr with h1 | h1
    · rcases Graph.ensureNode_nodes_cases h1 with h2 | h2
      · exact Or.inl h2
      · exact Or.inr (Or.inl h2)
    · exact Or.inr (Or.inr h1)
  rcases hpr' with hold | hu | hv
  · rcases h pr hold with hl | ⟨hnone, e, he, hcase⟩
    · exact Or.inl hl
    · exact Or.inr ⟨hnone, e, Graph.edges_subset_addEdge G u v e he, hcase⟩
  · subst hu
    exact Or.inr ⟨rfl, (addEdge_endpoints_mem G u v).1⟩
  · subst hv
    exact Or.inr ⟨rfl, (addEdge_endpoints_mem G u v).2⟩

theorem TaggedOk.foldAddEdge {G : Graph} (h : TaggedOk G) (a : String)
    (xs : List String) :
    TaggedOk (xs.foldl (fun g x => g.addEdge a x) G) := by
  induction xs generalizing G with
  | nil => exact h
  | cons x xs ih => exact ih (h.addEdge a x)

theorem taggedOk_addEdgesFromRow {G : Graph} (h : TaggedOk G)
    (r : SimilarRow) : TaggedOk (addEdgesFromRow G r) := by
  cases hr : r.similarArtists with
  | none => simpa [addEdgesFromRow, hr] using h
  | some s =>
    simp only [addEdgesFromRow, hr]
    exact h.foldAddEdge r.artist (pySplitCommaSpace s)

theorem TaggedOk.rowsFold {G : Graph} (h : TaggedOk G)
    (rows : List SimilarRow) :
    TaggedOk (rows.foldl addEdgesFromRow G) := by
  induction rows generalizing G with
  | nil => exact h
  | cons r rs ih => exact ih (taggedOk_addEdgesFromRow h r)

theorem taggedOk_buildEdgesPhase {G : Graph} (h : TaggedOk G)
    (sim : SimilarDF) : TaggedOk (buildEdgesPhase sim G) := by
  unfold buildEdgesPhase
  split
  · exact h.rowsFold sim.rows
  · exact h

theorem splitExplodeStrip_strip {cells : List String} {n : String}
    (h : n ∈ splitExplodeStrip cells) : ∃ x, n = pyStrip x := by
  unfold splitExplodeStrip at h
  rw [List.mem_flatMap] at h
  obtain ⟨c, _, hmem⟩ := h
  rw [List.mem_map] at hmem
  obtain ⟨y, _, hyn⟩ := hmem
  exact ⟨y, hyn.symm⟩

theorem likedArtists_strip {df : RatingsDF} {n : String}
    (h : n ∈ likedArtists df) : ∃ x, n = pyStrip x := by
  unfold likedArtists at h
  split at h
  · exact splitExplodeStrip_strip h
  · simp at h

theorem similarLikedArtists_strip {sim : SimilarDF} {n : String}
    (h : n ∈ similarLikedArtists sim) : ∃ x, n = pyStrip x := by
  unfold similarLikedArtists at h
  split at h
  · exact splitExplodeStrip_strip h
  · simp at h

theorem nmfArtists_strip {df : RatingsDF} {n : String}
    (h : n ∈ nmfArtists df) : ∃ x, n = pyStrip x := by
  unfold nmfArtists at h
  split at h
  · exact splitExplodeStrip_strip h
  · simp at h

theorem notLikedArtists_strip {df : RatingsDF} {n : String}
    (h : n ∈ notLikedArtists df) : ∃ x, n = pyStrip x := by
  unfold notLikedArtists at h
  split at h
  · exact splitExplodeStrip_strip h
  · simp at h

theorem TaggedOk_empty : TaggedOk Graph.empty := by
  intro pr hpr
  simp [Graph.empty] at hpr

/-- C7 counterexample: a node created only by `add_edge` (the raw `Artist`
cell " A ") is neither trimmed nor tagged. -/
theorem untagged_node_counterexample :
    ((" A ", (none : Option String)) ∈
      (build_graph ⟨true, true, []⟩
        ⟨true, true, [⟨" A ", some "B"⟩]⟩ false).nodes) ∧
    pyStrip " A " ≠ " A " :=
  ⟨by decide, by decide⟩

/-- C7 amended: every node of a built graph either carries a category tag in
{liked, similar_liked, nmf, not_liked} and a name produced by stripping, or
carries no tag and occurs as the endpoint of a similarity-derived edge
(nodes created by `add_edge` are exempt from trimming and tagging). -/
theorem node_tag_or_edge_endpoint (df : RatingsDF) (sim : SimilarDF)
    (b : Bool) :
    ∀ pr ∈ (build_graph df sim b).nodes,
      (∃ t, pr.2 = some t ∧
        (t = "liked" ∨ t = "similar_liked" ∨ t = "nmf" ∨ t = "not_liked") ∧
        ∃ x, pr.1 = pyStrip x) ∨
      (pr.2 = none ∧
        ∃ e ∈ (build_graph df sim b).edges, pr.1 = e.1 ∨ pr.1 = e.2) := by
  have hok : TaggedOk (build_graph df sim b) := by
    have hbase : TaggedOk (buildEdgesPhase sim
        ((Graph.empty.addNodesFrom (likedArtists df) "liked").addNodesFrom
          (similarLikedArtists sim) "similar_liked")) :=
      taggedOk_buildEdgesPhase
        (TaggedOk.addNodesFrom
          (TaggedOk.addNodesFrom TaggedOk_empty
            (fun n hn => likedArtists_strip hn) (Or.inl rfl))
          (fun n hn => similarLikedArtists_strip hn)
          (Or.inr (Or.inl rfl))) sim
    unfold build_graph
    split
    · exact TaggedOk.addNodesFrom
        (TaggedOk.addNodesFrom hbase (fun n hn => nmfArtists_strip hn)
          (Or.inr (Or.inr (Or.inl rfl))))
        (fun n hn => notLikedArtists_strip hn)
        (Or.inr (Or.inr (Or.inr rfl)))
    · exact hbase
  exact hok

/-- Witness for the amended C7 at the worked example's "Lucy Dacus" node. -/
theorem node_tag_or_edge_endpoint_witness :
    (∃ t, (("Lucy Dacus", some "liked") : String × Option String).2 = some t ∧
      (t = "liked" ∨ t = "similar_liked" ∨ t = "nmf" ∨ t = "not_liked") ∧
      ∃ x, (("Lucy Dacus", some "liked") : String × Option String).1 =
        pyStrip x) ∨
    ((("Lucy Dacus", some "liked") : String × Option String).2 = none ∧
      ∃ e ∈ (build_graph exDF exSim false).edges,
        (("Lucy Dacus", some "liked") : String × Option String).1 = e.1 ∨
        (("Lucy Dacus", some "liked") : String × Option String).1 = e.2) :=
  node_tag_or_edge_endpoint exDF exSim false ("Lucy Dacus", some "liked")
    (by decide)


theorem GraphEquiv.rfl (G : Graph) : GraphEquiv G G := ⟨fun _ => Eq.refl _, Eq.refl _⟩

theorem GraphEquiv.hasNodeEq {G G' : Graph} (h : GraphEquiv G G')
    (n : String) : G.hasNode n = G'.hasNode n := by
  rw [Graph.hasNode_eq_isSome_attrOf, Graph.hasNode_eq_isSome_attrOf, h.1 n]

theorem GraphEquiv.ensureNode {G G' : Graph} (h : GraphEquiv G G')
    (m : String) : GraphEquiv (G.ensureNode m) (G'.ensureNode m) := by
  refine ⟨fun n => ?_, ?_⟩
  · rw [Graph.attrOf_ensureNode, Graph.attrOf_ensureNode, h.hasNodeEq m,
      h.1 n]
  · rw [Graph.edges_ensureNode, Graph.edges_ensureNode]
    exact h.2

theorem graphEquiv_addEdge {G G' : Graph} (h : GraphEquiv G G')
    (u v : String) : GraphEquiv (G.addEdge u v) (G'.addEdge u v) := by
  refine ⟨fun n => ?_, addEdge_edges_congr h.2 u v⟩
  rw [Graph.attrOf_addEdge, Graph.attrOf_addEdge]
  exact ((h.ensureNode u).ensureNode v).1 n

theorem graphEquiv_foldAddEdge {G G' : Graph} (h : GraphEquiv G G')
    (a : String) (xs : List String) :
    GraphEquiv (xs.foldl (fun g x => g.addEdge a x) G)
      (xs.foldl (fun g x => g.addEdge a x) G') := by
  induction xs generalizing G G' with
  | nil => exact h
  | cons x xs ih => exact ih (graphEquiv_addEdge h a x)

theorem graphEquiv_addEdgesFromRow {G G' : Graph} (h : GraphEquiv G G')
    (r : SimilarRow) :
    GraphEquiv (addEdgesFromRow G r) (addEdgesFromRow G' r) := by
  cases hr : r.similarArtists with
  | none => simpa [addEdgesFromRow, hr] using h
  | some s =>
    simp only [addEdgesFromRow, hr]
    exact graphEquiv_foldAddEdge h r.artist (pySplitCommaSpace s)

theorem graphEquiv_rowsFold {G G' : Graph} (h : GraphEquiv G G')
    (rows : List SimilarRow) :
    GraphEquiv (rows.foldl addEdgesFromRow G)
      (rows.foldl addEdgesFromRow G') := by
  induction rows generalizing G G' with
  | nil => exact h
  | cons r rs ih => exact ih (graphEquiv_addEdgesFromRow h r)

theorem graphEquiv_addNodesFrom {G G' : Graph} (h : GraphEquiv G G')
    {l l' : List String} (hl : ∀ x, x ∈ l ↔ x ∈ l') (t : String) :
    GraphEquiv (G.addNodesFrom l t) (G'.addNodesFrom l' t) := by
  refine ⟨fun n => ?_, ?_⟩
  · rw [Graph.attrOf_addNodesFrom, Graph.attrOf_addNodesFrom]
    by_cases hn : n ∈ l
    · rw [if_pos hn, if_pos ((hl n).mp hn)]
    · rw [if_neg hn, if_neg (fun hc => hn ((hl n).mpr hc)), h.1 n]
  · rw [Graph.edges_addNodesFrom, Graph.edges_addNodesFrom]
    exact h.2

theorem graphEquiv_buildEdgesPhase {G G' : Graph} (h : GraphEquiv G G')
    (sim : SimilarDF) :
    GraphEquiv (buildEdgesPhase sim G) (buildEdgesPhase sim G') := by
  unfold buildEdgesPhase
  split
  · exact graphEquiv_rowsFold h sim.rows
  · exact h

/-- C9. Graph construction is deterministic in the inputs: however the four
Python `set(...)` values are enumerated (any two orders `o1..o4` and
`p1..p4` with the right membership), the built graphs have the same node
set, the same attribute table and the same edge list. -/
theorem build_graph_deterministic (df : RatingsDF) (sim : SimilarDF)
    (b : Bool) (o1 o2 o3 o4 p1 p2 p3 p4 : List String)
    (h1 : ∀ x, x ∈ o1 ↔ x ∈ likedArtists df)
    (h2 : ∀ x, x ∈ o2 ↔ x ∈ similarLikedArtists sim)
    (h3 : ∀ x, x ∈ o3 ↔ x ∈ nmfArtists df)
    (h4 : ∀ x, x ∈ o4 ↔ x ∈ notLikedArtists df)
    (k1 : ∀ x, x ∈ p1 ↔ x ∈ likedArtists df)
    (k2 : ∀ x, x ∈ p2 ↔ x ∈ similarLikedArtists sim)
    (k3 : ∀ x, x ∈ p3 ↔ x ∈ nmfArtists df)
    (k4 : ∀ x, x ∈ p4 ↔ x ∈ notLikedArtists df) :
    (build_graph df sim b = build_graph_ord df sim b (likedArtists df)
      (similarLikedArtists sim) (nmfArtists df) (notLikedArtists df)) ∧
    (∀ n, (build_graph_ord df sim b o1 o2 o3 o4).hasNode n =
        (build_graph_ord df sim b p1 p2 p3 p4).hasNode n) ∧
    (∀ n, (build_graph_ord df sim b o1 o2 o3 o4).attrOf n =
        (build_graph_ord df sim b p1 p2 p3 p4).attrOf n) ∧
    (build_graph_ord df sim b o1 o2 o3 o4).edges =
      (build_graph_ord df sim b p1 p2 p3 p4).edges := by
  have m1 : ∀ x, x ∈ o1 ↔ x ∈ p1 := fun x => (h1 x).trans (k1 x).symm
  have m2 : ∀ x, x ∈ o2 ↔ x ∈ p2 := fun x => (h2 x).trans (k2 x).symm
  have m3 : ∀ x, x ∈ o3 ↔ x ∈ p3 := fun x => (h3 x).trans (k3 x).symm
  have m4 : ∀ x, x ∈ o4 ↔ x ∈ p4 := fun x => (h4 x).trans (k4 x).symm
  have hbase : GraphEquiv
      (buildEdgesPhase sim ((Graph.empty.addNodesFrom o1 "liked").addNodesFrom
        o2 "similar_liked"))
      (buildEdgesPhase sim ((Graph.empty.addNodesFrom p1 "liked").addNodesFrom
        p2 "similar_liked")) :=
    graphEquiv_buildEdgesPhase
      (graphEquiv_addNodesFrom
        (graphEquiv_addNodesFrom (GraphEquiv.rfl Graph.empty) m1 "liked")
        m2 "similar_liked") sim
  have hfin : GraphEquiv (build_graph_ord df sim b o1 o2 o3 o4)
      (build_graph_ord df sim b p1 p2 p3 p4) := by
    unfold build_graph_ord
    split
    · exact graphEquiv_addNodesFrom
        (graphEquiv_addNodesFrom hbase m3 "nmf") m4 "not_liked"
    · exact hbase
  exact ⟨Eq.refl _, fun n => hfin.hasNodeEq n, hfin.1, hfin.2⟩



/-- Witness for C9: enumerating the liked set {X, Y} in either order gives
the same node set, attribute table and edge list. -/
theorem build_graph_deterministic_witness :
    (build_graph dfD simD false = build_graph_ord dfD simD false
      (likedArtists dfD) (similarLikedArtists simD) (nmfArtists dfD)
      (notLikedArtists dfD)) ∧
    (∀ n, (build_graph_ord dfD simD false ["Y", "X"] [] [] []).hasNode n =
        (build_graph_ord dfD simD false ["X", "Y"] [] [] []).hasNode n) ∧
    (∀ n, (build_graph_ord dfD simD false ["Y", "X"] [] [] []).attrOf n =
        (build_graph_ord dfD simD false ["X", "Y"] [] [] []).attrOf n) ∧
    (build_graph_ord dfD simD false ["Y", "X"] [] [] []).edges =
      (build_graph_ord dfD simD false ["X", "Y"] [] [] []).edges := by
  have hl : likedArtists dfD = ["X", "Y"] := by decide
  have hs : similarLikedArtists simD = [] := by decide
  have hn : nmfArtists dfD = [] := by decide
  have hn' : notLikedArtists dfD = [] := by decide
  have hyx : ∀ x : String, x ∈ ["Y", "X"] ↔ x ∈ likedArtists dfD := by
    intro x
    rw [hl]
    constructor
    · intro hx
      rcases List.mem_cons.mp hx with rfl | hx
      · exact List.mem_cons_of_mem _ (List.mem_singleton_self _)
      · rcases List.mem_singleton.mp hx with rfl
        exact List.mem_cons_self _ _
    · intro hx
      rcases List.mem_cons.mp hx with rfl | hx
      · exact List.mem_cons_of_mem _ (List.mem_singleton_self _)
      · rcases List.mem_singleton.mp hx with rfl
        exact List.mem_cons_self _ _
  have hxy : ∀ x : String, x ∈ ["X", "Y"] ↔ x ∈ likedArtists dfD := by
    intro x
    rw [hl]
  have hnil : ∀ (l : List String), l = [] →
      ∀ x : String, x ∈ ([] : List String) ↔ x ∈ l := by
    intro l hleq x
    rw [hleq]
  exact build_graph_deterministic dfD simD false
    ["Y", "X"] [] [] [] ["X", "Y"] [] [] []
    hyx (hnil _ hs) (hnil _ hn) (hnil _ hn')
    hxy (hnil _ hs) (hnil _ hn) (hnil _ hn')
